import Mathlib

/-!
Shallow embedding of `p1/project1.py`, a CPU-scheduling simulator
(FCFS, SRT and a stubbed RR policy), together with theorems checking the
natural-language specification against this code.

Modelling conventions:
* Python integers are `Nat` where the source value can never go below zero
  (clock ticks, static workload fields) and `Int` where the source mutates
  the value downward (`_remaining`, `_num`, the running totals).
* Python floats appear only in the final averages; every intermediate value
  is integral, so the averages are modelled exactly in `ℚ`.
* The dictionaries `_io` and `_finished` are keyed by `Process` objects in
  the source; the workload loader guarantees distinct pids, so object
  identity is modelled by pid equality, and the dictionaries become
  insertion-ordered association lists with in-place update.
* The unbounded `while 1:` loops are modelled with explicit fuel; `none`
  means the loop did not finish within the given fuel.
* `CPU.remove` and `CPU.preempt` dereference `self._curr`; calling them with
  no running process raises `AttributeError` in the source.  Both callers
  guard these calls with a `cpu._curr != None` check, so the `none` branch is
  unreachable in the drivers; it is modelled as the identity.
-/

namespace Project1

/-- Module-level constant `t_cs = 8` (context-switch cost, split in halves). -/
def t_cs : Nat := 8

/-- Module-level constant `t_slice = 80` (RR quantum; unused by the source's runs). -/
def t_slice : Nat := 80

/-- Module-level constant `rr_add = 0` (RR queue-insertion mode; unused by the source's runs). -/
def rr_add : Nat := 0

/-- The `Process` class: static workload description plus mutable simulation state. -/
structure Process where
  _start : Int
  _readied : Nat
  _last_arrival : Nat
  _remaining : Int
  _pid : String
  _arrival : Nat
  _burst : Nat
  _num : Int
  _io : Nat
deriving DecidableEq, Repr

/-- Constructor `Process.__init__(pid, arrival, burst, num, io)`. -/
def Process.init (pid : String) (arrival burst num io : Nat) : Process :=
  { _start := 0
    _readied := 0
    _last_arrival := arrival
    _remaining := (burst : Int)
    _pid := pid
    _arrival := arrival
    _burst := burst
    _num := (num : Int)
    _io := io }

/-- The `CPU` class: simulation clock, running slot, ready queue, blocked map,
finished map and the aggregate counters. -/
structure CPU where
  _procs : List Process
  _total_turnaround : Int
  _total_wait : Int
  _total_num : Int
  _context : Nat
  _preempt : Nat
  _ticker : Nat
  _curr : Option Process
  _ready : List Process
  _finished : List (String × Nat)
  _io : List (Process × Nat)
deriving DecidableEq, Repr

/-- Constructor `CPU.__init__(procs)`.  The float fields `_avg_burst`, `_avg_wait` and
`_avg_turnaround` are output-only: the source computes `_avg_burst` here from
the pristine workload and the other two just before each run returns, and
nothing in the simulation ever reads them.  They are therefore not part of
the state; `statsOf` computes all three (exactly, in `ℚ`) from the final
state, which is possible because `_procs` is never mutated in this
embedding.  The source divides by `self._total_num`, a `ZeroDivisionError`
when the workload is empty; in `ℚ` division by zero returns `0` instead
(the claims only concern non-empty workloads). -/
def CPU.init (procs : List Process) : CPU :=
  { _procs := procs
    _total_turnaround := 0
    _total_wait := 0
    _total_num := (procs.map Process._num).sum
    _context := 0
    _preempt := 0
    _ticker := 0
    _curr := none
    _ready := []
    _finished := []
    _io := [] }

/-- Method `CPU.add(proc)`: record start time, charge the waited time, advance the
clock by half the context-switch cost, install the process, count one
context switch.  The source performs no occupancy check on `self._curr`. -/
def CPU.add (cpu : CPU) (proc : Process) : CPU :=
  let proc1 := { proc with _start := (cpu._ticker : Int) }
  { cpu with
    _total_wait := cpu._total_wait + ((cpu._ticker : Int) - (proc1._readied : Int))
    _ticker := cpu._ticker + t_cs / 2
    _curr := some proc1
    _context := cpu._context + 1 }

/-- Method `CPU.ready(proc)`: stamp `_readied` and `_last_arrival` with the clock and
append to the right end of the ready deque. -/
def CPU.ready (cpu : CPU) (proc : Process) : CPU :=
  { cpu with
    _ready := cpu._ready ++
      [{ proc with _readied := cpu._ticker, _last_arrival := cpu._ticker }] }

/-- Method `CPU.remove()`: advance the clock by the second context-switch half,
charge turnaround for the finished cycle, clear the running slot.
With `_curr = None` the source raises `AttributeError`; both drivers call
this only when a process is running, so that branch is the identity here. -/
def CPU.remove (cpu : CPU) : CPU :=
  match cpu._curr with
  | none => cpu
  | some c =>
    let t := cpu._ticker + t_cs / 2
    { cpu with
      _ticker := t
      _total_turnaround := cpu._total_turnaround + ((t : Int) - (c._last_arrival : Int))
      _curr := none }

/-- Method `CPU.preempt(proc)`: advance half the switch cost, re-stamp the running
process's `_readied` and push it to the *front* of the ready deque, advance
the other half, install `proc` (decrementing its `_remaining`, since it runs
during the current tick), count one context switch and one preemption.
The `none` branch is unreachable in the drivers (guarded), as in `remove`. -/
def CPU.preempt (cpu : CPU) (proc : Process) : CPU :=
  match cpu._curr with
  | none => cpu
  | some c =>
    let t1 := cpu._ticker + t_cs / 2
    let c1 := { c with _readied := t1 }
    { cpu with
      _ticker := t1 + t_cs / 2
      _ready := c1 :: cpu._ready
      _curr := some { proc with _remaining := proc._remaining - 1 }
      _context := cpu._context + 1
      _preempt := cpu._preempt + 1 }

/-- In-place update of the `_io` dictionary (keyed by process identity, i.e.
pid): overwrite an existing entry keeping its position, else append. -/
def ioInsert (l : List (Process × Nat)) (p : Process) (t : Nat) : List (Process × Nat) :=
  if l.any (fun q => q.1._pid == p._pid) then
    l.map (fun q => if q.1._pid == p._pid then (p, t) else q)
  else l ++ [(p, t)]

/-- Comparator used by Python's `sorted(..., key = obj._pid)`. -/
def pidLt (a b : Process) : Bool :=
  decide (a._pid < b._pid)

/-- Comparator used by Python's `sorted(..., key = (obj._remaining, obj._pid))`. -/
def procKeyLt (a b : Process) : Bool :=
  decide (a._remaining < b._remaining) ||
    (decide (a._remaining = b._remaining) && decide (a._pid < b._pid))

/-- Insert `p` into a list sorted under `lt` (before the first element not
below it).  With the distinct pids the workload loader guarantees, all sort
keys are distinct, so this agrees with Python's stable `sorted`. -/
def insertSorted (lt : Process → Process → Bool) (p : Process) : List Process → List Process
  | [] => [p]
  | q :: qs => if lt q p then q :: insertSorted lt p qs else p :: q :: qs

/-- Full sort under `lt`; models Python's `sorted` for distinct keys. -/
def sortProcs (lt : Process → Process → Bool) : List Process → List Process
  | [] => []
  | p :: ps => insertSorted lt p (sortProcs lt ps)

/-! ### run_fcfs (lines 267-334) -/

/-- Step 1 of the FCFS loop body (lines 273-298): if a process is running and
its burst is exhausted, decrement the burst count, move it to `_io` (with
completion time `ticker + io + t_cs/2`) or `_finished`, and flag `removed`;
otherwise run it for this tick (`_remaining -= 1`). -/
def fcfsBurstCheck (cpu : CPU) : CPU × Bool :=
  match cpu._curr with
  | none => (cpu, false)
  | some c =>
    if c._remaining ≤ 0 then
      let c1 := { c with _num := c._num - 1 }
      if 0 < c1._num then
        ({ cpu with
            _curr := some c1
            _io := ioInsert cpu._io c1 (cpu._ticker + c1._io + t_cs / 2) }, true)
      else
        ({ cpu with
            _curr := some c1
            _finished := cpu._finished ++ [(c1._pid, cpu._ticker)] }, true)
    else ({ cpu with _curr := some { c with _remaining := c._remaining - 1 } }, false)

/-- Step 2 of the FCFS loop body (lines 300-306): every blocked process whose
I/O completion time *equals* the clock is readied (in pid order) and deleted
from `_io`. -/
def fcfsIoDrain (cpu : CPU) : CPU :=
  let io_done := sortProcs pidLt ((cpu._io.filter (fun q => q.2 == cpu._ticker)).map Prod.fst)
  io_done.foldl
    (fun acc p =>
      let acc1 := acc.ready p
      { acc1 with _io := acc1._io.filter (fun q => q.1._pid != p._pid) })
    cpu

/-- Step 3 of the FCFS loop body (lines 308-313): every process whose static
arrival time *equals* the clock is readied. -/
def fcfsArrivals (cpu : CPU) : CPU :=
  (cpu._procs.filter (fun p => p._arrival == cpu._ticker)).foldl
    (fun acc p => acc.ready { p with _last_arrival := acc._ticker }) cpu

/-- Step 5 of the FCFS loop body (lines 318-323): if nothing is running, admit
the head of the ready queue and restart its burst at full length minus the
tick it runs now (`_remaining = _burst - 1`). -/
def fcfsAdmit (cpu : CPU) : CPU :=
  match cpu._curr with
  | some _ => cpu
  | none =>
    match cpu._ready with
    | [] => cpu
    | p :: rest =>
      let cpu1 := CPU.add { cpu with _ready := rest } p
      match cpu1._curr with
      | none => cpu1
      | some c => { cpu1 with _curr := some { c with _remaining := (c._burst : Int) - 1 } }

/-- One iteration of the FCFS `while 1:` body, before the termination check. -/
def fcfsBody (cpu : CPU) : CPU :=
  let p := fcfsBurstCheck cpu
  let cpu1 := fcfsArrivals (fcfsIoDrain p.1)
  let cpu2 := if p.2 then cpu1.remove else cpu1
  fcfsAdmit cpu2

/-- The FCFS loop: run the body, stop when `len(_finished) == n`, else advance
the clock by one tick and repeat.  `n` is the module-global number of
processes; `none` means the given fuel was exhausted. -/
def runFcfs (n : Nat) : Nat → CPU → Option CPU
  | 0, _ => none
  | fuel + 1, cpu =>
    let c := fcfsBody cpu
    if c._finished.length = n then some c
    else runFcfs n fuel { c with _ticker := c._ticker + 1 }

/-- The five-tuple the runs return (lines 331-334, 439-442 and 455-458):
`(avg_burst, avg_wait, avg_turnaround, context_switches, preemptions)`.
`avg_burst` is the value `CPU.__init__` computes on lines 94-95; recomputing
it here from `_procs` is exact because `_procs` is static in this embedding
(in the source the same objects are mutated, which is why it computes the
average up front and stores it). -/
def statsOf (cpu : CPU) : ℚ × ℚ × ℚ × Nat × Nat :=
  ((((cpu._procs.map (fun p => (p._burst : Int) * p._num)).sum : Int) : ℚ) /
     ((cpu._total_num : Int) : ℚ),
   ((cpu._total_wait : Int) : ℚ) / ((cpu._total_num : Int) : ℚ),
   ((cpu._total_turnaround : Int) : ℚ) / ((cpu._total_num : Int) : ℚ),
   cpu._context,
   cpu._preempt)

/-- Function `run_fcfs(procs)`, with explicit fuel for the unbounded loop. -/
def run_fcfs (fuel : Nat) (procs : List Process) : Option (ℚ × ℚ × ℚ × Nat × Nat) :=
  (runFcfs procs.length fuel (CPU.init procs)).map statsOf

/-! ### run_srt (lines 342-442) -/

/-- Step 1 of the SRT loop body (lines 347-373): as in FCFS, except that a
process moving to I/O has its `_remaining` reset to the full burst first
(line 357). -/
def srtBurstCheck (cpu : CPU) : CPU × Bool :=
  match cpu._curr with
  | none => (cpu, false)
  | some c =>
    if c._remaining ≤ 0 then
      let c1 := { c with _num := c._num - 1 }
      if 0 < c1._num then
        let c2 := { c1 with _remaining := (c1._burst : Int) }
        ({ cpu with
            _curr := some c2
            _io := ioInsert cpu._io c2 (cpu._ticker + c2._io + t_cs / 2) }, true)
      else
        ({ cpu with
            _curr := some c1
            _finished := cpu._finished ++ [(c1._pid, cpu._ticker)] }, true)
    else ({ cpu with _curr := some { c with _remaining := c._remaining - 1 } }, false)

/-- Ready one process under SRT and re-sort the whole queue by
`(_remaining, _pid)` (lines 388-391 / 408-411), for each candidate in turn. -/
def srtInsertAll (cpu : CPU) (cands : List Process) : CPU :=
  cands.foldl
    (fun acc p =>
      let acc1 := acc.ready p
      { acc1 with _ready := sortProcs procKeyLt acc1._ready })
    cpu

/-- Shared SRT handling of one group of newly-ready candidates, already sorted
by `(_remaining, _pid)` (the `io_done` block, lines 377-393, and the
`arrived` block, lines 397-413, are duplicates of this logic).  If a process
is running and is not retiring this tick, only the *head* of the group is
compared; it preempts exactly when its `_remaining` is strictly below the
running process's.  All remaining candidates are inserted into the sorted
ready queue without any comparison. -/
def srtAdmitReady (cpu : CPU) (removed : Bool) (cands : List Process) : CPU :=
  match cands with
  | [] => cpu
  | best :: rest =>
    match cpu._curr, removed with
    | some c, false =>
      if best._remaining < c._remaining then srtInsertAll (cpu.preempt best) rest
      else srtInsertAll cpu (best :: rest)
    | _, _ => srtInsertAll cpu (best :: rest)

/-- Step 2 of the SRT loop body (lines 375-393): drain I/O completions whose
completion time equals the clock, sorted by `(_remaining, _pid)`.  Note the
source never deletes the drained entries from `_io` (they can never fire
again because the clock only grows). -/
def srtIoPhase (cpu : CPU) (removed : Bool) : CPU :=
  let io_done :=
    sortProcs procKeyLt ((cpu._io.filter (fun q => q.2 == cpu._ticker)).map Prod.fst)
  srtAdmitReady cpu removed io_done

/-- Step 3 of the SRT loop body (lines 395-413): processes whose arrival time
equals the (possibly already advanced) clock, sorted by `(_remaining, _pid)`. -/
def srtArrPhase (cpu : CPU) (removed : Bool) : CPU :=
  let arrived :=
    sortProcs procKeyLt (cpu._procs.filter (fun p => p._arrival == cpu._ticker))
  srtAdmitReady cpu removed arrived

/-- Step 5 of the SRT loop body (lines 418-431): admit the ready-queue head;
a fresh burst starts at `_burst - 1`, a preempted burst resumes with its
saved `_remaining`.  Line 421 re-derives `_start` as the pre-switch clock. -/
def srtAdmit (cpu : CPU) : CPU :=
  match cpu._curr with
  | some _ => cpu
  | none =>
    match cpu._ready with
    | [] => cpu
    | p :: rest =>
      let cpu1 := CPU.add { cpu with _ready := rest } p
      match cpu1._curr with
      | none => cpu1
      | some c =>
        let c1 := { c with _start := (cpu1._ticker : Int) - ((t_cs / 2 : Nat) : Int) }
        let c2 :=
          if c1._remaining = (c1._burst : Int) then
            { c1 with _remaining := (c1._burst : Int) - 1 }
          else c1
        { cpu1 with _curr := some c2 }

/-- One iteration of the SRT `while 1:` body, before the termination check. -/
def srtBody (cpu : CPU) : CPU :=
  let p := srtBurstCheck cpu
  let cpu1 := srtArrPhase (srtIoPhase p.1 p.2) p.2
  let cpu2 := if p.2 then cpu1.remove else cpu1
  srtAdmit cpu2

/-- The SRT loop, with fuel as in `runFcfs`. -/
def runSrt (n : Nat) : Nat → CPU → Option CPU
  | 0, _ => none
  | fuel + 1, cpu =>
    let c := srtBody cpu
    if c._finished.length = n then some c
    else runSrt n fuel { c with _ticker := c._ticker + 1 }

/-- Function `run_srt(procs)`, with explicit fuel for the unbounded loop. -/
def run_srt (fuel : Nat) (procs : List Process) : Option (ℚ × ℚ × ℚ × Nat × Nat) :=
  (runSrt procs.length fuel (CPU.init procs)).map statsOf

/-! ### run_rr (lines 450-458) -/

/-- Function `run_rr(procs)`: the source's round-robin "simulation" builds a fresh
`CPU`, prints the start/end banners, and immediately returns the averages of
the untouched state — there is no loop, no tick, no admission. -/
def run_rr (procs : List Process) : ℚ × ℚ × ℚ × Nat × Nat :=
  statsOf (CPU.init procs)

end Project1

namespace Project1

/-! ### Concrete workloads and states used by the theorems -/

/-- Workload line `A|0|4|1|0`: arrives at 0ms, one 4ms CPU burst, no I/O. -/
def pA : Process := Process.init "A" 0 4 1 0

/-- Workload line `A|0|1|2|1`: two 1ms CPU bursts separated by 1ms of I/O. -/
def pA121 : Process := Process.init "A" 0 1 2 1

/-- Workload line `A|0|4|2|0`: two 4ms CPU bursts separated by 0ms of I/O. -/
def pA420 : Process := Process.init "A" 0 4 2 0

/-! ### Preservation helpers -/

/-- Fields not touched by a fold over ready-queue insertions are preserved. -/
theorem foldPreserves (g : CPU → Process → CPU)
    (hg : ∀ (cpu : CPU) (p : Process), (g cpu p)._curr = cpu._curr ∧
      (g cpu p)._preempt = cpu._preempt ∧ (g cpu p)._context = cpu._context ∧
      (g cpu p)._ticker = cpu._ticker) :
    ∀ (l : List Process) (cpu : CPU),
      (List.foldl g cpu l)._curr = cpu._curr ∧
      (List.foldl g cpu l)._preempt = cpu._preempt ∧
      (List.foldl g cpu l)._context = cpu._context ∧
      (List.foldl g cpu l)._ticker = cpu._ticker := by
  intro l
  induction l with
  | nil => intro cpu; exact ⟨rfl, rfl, rfl, rfl⟩
  | cons p ps ih =>
    intro cpu
    have h1 := hg cpu p
    have h2 := ih (g cpu p)
    simp only [List.foldl_cons]
    exact ⟨h2.1.trans h1.1, h2.2.1.trans h1.2.1, h2.2.2.1.trans h1.2.2.1,
      h2.2.2.2.trans h1.2.2.2⟩

/-- Lemma: `srtInsertAll` only changes the ready queue. -/
theorem srtInsertAll_preserves (cpu : CPU) (l : List Process) :
    (srtInsertAll cpu l)._curr = cpu._curr ∧
    (srtInsertAll cpu l)._preempt = cpu._preempt ∧
    (srtInsertAll cpu l)._context = cpu._context ∧
    (srtInsertAll cpu l)._ticker = cpu._ticker := by
  unfold srtInsertAll
  apply foldPreserves
  intro cpu p
  exact ⟨rfl, rfl, rfl, rfl⟩

/-- The FCFS I/O drain only changes the ready queue and `_io`. -/
theorem fcfsIoDrain_preserves (cpu : CPU) :
    (fcfsIoDrain cpu)._curr = cpu._curr ∧
    (fcfsIoDrain cpu)._preempt = cpu._preempt ∧
    (fcfsIoDrain cpu)._context = cpu._context ∧
    (fcfsIoDrain cpu)._ticker = cpu._ticker := by
  unfold fcfsIoDrain
  apply foldPreserves
  intro cpu p
  exact ⟨rfl, rfl, rfl, rfl⟩

/-- The FCFS arrival scan only changes the ready queue. -/
theorem fcfsArrivals_preserves (cpu : CPU) :
    (fcfsArrivals cpu)._curr = cpu._curr ∧
    (fcfsArrivals cpu)._preempt = cpu._preempt ∧
    (fcfsArrivals cpu)._context = cpu._context ∧
    (fcfsArrivals cpu)._ticker = cpu._ticker := by
  unfold fcfsArrivals
  apply foldPreserves
  intro cpu p
  exact ⟨rfl, rfl, rfl, rfl⟩

/-- The burst-boundary check never touches clock or counters (FCFS). -/
theorem fcfsBurstCheck_preserves (cpu : CPU) :
    ((fcfsBurstCheck cpu).1)._preempt = cpu._preempt ∧
    ((fcfsBurstCheck cpu).1)._context = cpu._context ∧
    ((fcfsBurstCheck cpu).1)._ticker = cpu._ticker := by
  simp only [fcfsBurstCheck]
  split
  · exact ⟨rfl, rfl, rfl⟩
  · split
    · split <;> exact ⟨rfl, rfl, rfl⟩
    · exact ⟨rfl, rfl, rfl⟩

/-- The burst-boundary check never touches clock or counters (SRT). -/
theorem srtBurstCheck_preserves (cpu : CPU) :
    ((srtBurstCheck cpu).1)._preempt = cpu._preempt ∧
    ((srtBurstCheck cpu).1)._context = cpu._context ∧
    ((srtBurstCheck cpu).1)._ticker = cpu._ticker := by
  simp only [srtBurstCheck]
  split
  · exact ⟨rfl, rfl, rfl⟩
  · split
    · split <;> exact ⟨rfl, rfl, rfl⟩
    · exact ⟨rfl, rfl, rfl⟩

/-- Lemma: `remove` keeps both counters and never moves the clock backwards. -/
theorem remove_preserves (cpu : CPU) :
    cpu.remove._preempt = cpu._preempt ∧ cpu.remove._context = cpu._context ∧
    cpu._ticker ≤ cpu.remove._ticker := by
  unfold CPU.remove
  split
  · exact ⟨rfl, rfl, Nat.le_refl _⟩
  · exact ⟨rfl, rfl, Nat.le_add_right _ _⟩

/-- Lemma: `preempt` adds at most one preemption and never moves the clock backwards. -/
theorem preempt_le (cpu : CPU) (p : Process) :
    (cpu.preempt p)._preempt ≤ cpu._preempt + 1 ∧
    cpu._ticker ≤ (cpu.preempt p)._ticker := by
  unfold CPU.preempt
  split
  · exact ⟨Nat.le_succ _, Nat.le_refl _⟩
  · exact ⟨Nat.le_refl _, (Nat.le_add_right _ _).trans (Nat.le_add_right _ _)⟩

/-- FCFS admission keeps the preemption counter and never rewinds the clock. -/
theorem fcfsAdmit_preserves (cpu : CPU) :
    (fcfsAdmit cpu)._preempt = cpu._preempt ∧ cpu._ticker ≤ (fcfsAdmit cpu)._ticker := by
  simp only [fcfsAdmit]
  split
  · exact ⟨rfl, Nat.le_refl _⟩
  · split
    · exact ⟨rfl, Nat.le_refl _⟩
    · exact ⟨rfl, Nat.le_add_right _ _⟩

/-- SRT admission keeps the preemption counter and never rewinds the clock. -/
theorem srtAdmit_preserves (cpu : CPU) :
    (srtAdmit cpu)._preempt = cpu._preempt ∧ cpu._ticker ≤ (srtAdmit cpu)._ticker := by
  simp only [srtAdmit]
  split
  · exact ⟨rfl, Nat.le_refl _⟩
  · split
    · exact ⟨rfl, Nat.le_refl _⟩
    · split
      · exact ⟨rfl, Nat.le_add_right _ _⟩
      · split <;> exact ⟨rfl, Nat.le_add_right _ _⟩

/-- With something running, FCFS admission is the identity. -/
theorem fcfsAdmit_of_some (cpu : CPU) (x : Process) (hc : cpu._curr = some x) :
    fcfsAdmit cpu = cpu := by
  unfold fcfsAdmit
  rw [hc]

end Project1

namespace Project1

/-- The FCFS loop body never touches the preemption counter. -/
theorem fcfsBody_preempt (cpu : CPU) : (fcfsBody cpu)._preempt = cpu._preempt := by
  simp only [fcfsBody]
  rcases hb : (fcfsBurstCheck cpu).2 with _ | _
  · rw [if_neg Bool.false_ne_true, (fcfsAdmit_preserves _).1,
      (fcfsArrivals_preserves _).2.1, (fcfsIoDrain_preserves _).2.1,
      (fcfsBurstCheck_preserves _).1]
  · rw [if_pos rfl, (fcfsAdmit_preserves _).1, (remove_preserves _).1,
      (fcfsArrivals_preserves _).2.1, (fcfsIoDrain_preserves _).2.1,
      (fcfsBurstCheck_preserves _).1]

/-- The FCFS loop body never moves the clock backwards. -/
theorem fcfsBody_ticker (cpu : CPU) : cpu._ticker ≤ (fcfsBody cpu)._ticker := by
  simp only [fcfsBody]
  have he : cpu._ticker = (fcfsArrivals (fcfsIoDrain (fcfsBurstCheck cpu).1))._ticker := by
    rw [(fcfsArrivals_preserves _).2.2.2, (fcfsIoDrain_preserves _).2.2.2,
      (fcfsBurstCheck_preserves _).2.2]
  rcases hb : (fcfsBurstCheck cpu).2 with _ | _
  · rw [if_neg Bool.false_ne_true]
    exact he.le.trans (fcfsAdmit_preserves _).2
  · rw [if_pos rfl]
    exact (he.le.trans (remove_preserves _).2.2).trans (fcfsAdmit_preserves _).2

/-- One candidate group adds at most one preemption (only its head is ever
compared against the running process). -/
theorem srtAdmitReady_preempt_le (cpu : CPU) (removed : Bool) (cands : List Process) :
    (srtAdmitReady cpu removed cands)._preempt ≤ cpu._preempt + 1 := by
  simp only [srtAdmitReady]
  split
  · exact Nat.le_succ _
  · split
    · split
      · rw [(srtInsertAll_preserves _ _).2.1]
        exact (preempt_le _ _).1
      · rw [(srtInsertAll_preserves _ _).2.1]
        exact Nat.le_succ _
    · rw [(srtInsertAll_preserves _ _).2.1]
      exact Nat.le_succ _

/-- One candidate group never moves the clock backwards. -/
theorem srtAdmitReady_ticker (cpu : CPU) (removed : Bool) (cands : List Process) :
    cpu._ticker ≤ (srtAdmitReady cpu removed cands)._ticker := by
  simp only [srtAdmitReady]
  split
  · exact Nat.le_refl _
  · split
    · split
      · rw [(srtInsertAll_preserves _ _).2.2.2]
        exact (preempt_le _ _).2
      · rw [(srtInsertAll_preserves _ _).2.2.2]
    · rw [(srtInsertAll_preserves _ _).2.2.2]

/-- The SRT loop body performs at most two preemptions: at most one for the
I/O-completion group and at most one for the arrival group. -/
theorem srtBody_preempt_le (cpu : CPU) : (srtBody cpu)._preempt ≤ cpu._preempt + 2 := by
  simp only [srtBody]
  have h1 : (srtIoPhase (srtBurstCheck cpu).1 (srtBurstCheck cpu).2)._preempt ≤
      cpu._preempt + 1 := by
    have := srtAdmitReady_preempt_le (srtBurstCheck cpu).1 (srtBurstCheck cpu).2
      (sortProcs procKeyLt
        ((((srtBurstCheck cpu).1._io.filter
          (fun q => q.2 == (srtBurstCheck cpu).1._ticker)).map Prod.fst)))
    rw [(srtBurstCheck_preserves cpu).1] at this
    exact this
  have h2 : (srtArrPhase (srtIoPhase (srtBurstCheck cpu).1 (srtBurstCheck cpu).2)
      (srtBurstCheck cpu).2)._preempt ≤ cpu._preempt + 2 := by
    have := srtAdmitReady_preempt_le
      (srtIoPhase (srtBurstCheck cpu).1 (srtBurstCheck cpu).2) (srtBurstCheck cpu).2
      (sortProcs procKeyLt
        ((srtIoPhase (srtBurstCheck cpu).1 (srtBurstCheck cpu).2)._procs.filter
          (fun p => p._arrival ==
            (srtIoPhase (srtBurstCheck cpu).1 (srtBurstCheck cpu).2)._ticker)))
    exact this.trans (by omega)
  rcases hb : (srtBurstCheck cpu).2 with _ | _ <;> rw [hb] at h2
  · rw [if_neg Bool.false_ne_true, (srtAdmit_preserves _).1]
    exact h2
  · rw [if_pos rfl, (srtAdmit_preserves _).1, (remove_preserves _).1]
    exact h2

/-- The SRT loop body never moves the clock backwards. -/
theorem srtBody_ticker (cpu : CPU) : cpu._ticker ≤ (srtBody cpu)._ticker := by
  simp only [srtBody]
  have h1 : cpu._ticker ≤
      (srtIoPhase (srtBurstCheck cpu).1 (srtBurstCheck cpu).2)._ticker := by
    rw [← (srtBurstCheck_preserves cpu).2.2]
    exact srtAdmitReady_ticker _ _ _
  have h2 : cpu._ticker ≤
      (srtArrPhase (srtIoPhase (srtBurstCheck cpu).1 (srtBurstCheck cpu).2)
        (srtBurstCheck cpu).2)._ticker :=
    h1.trans (srtAdmitReady_ticker _ _ _)
  rcases hb : (srtBurstCheck cpu).2 with _ | _ <;> rw [hb] at h2
  · rw [if_neg Bool.false_ne_true]
    exact h2.trans (srtAdmit_preserves _).2
  · rw [if_pos rfl]
    exact (h2.trans (remove_preserves _).2.2).trans (srtAdmit_preserves _).2

/-- When the loop exits, `len(_finished)` equals the module-global `n` (FCFS). -/
theorem runFcfs_finished (n : Nat) :
    ∀ (fuel : Nat) (cpu res : CPU), runFcfs n fuel cpu = some res →
      res._finished.length = n := by
  intro fuel
  induction fuel with
  | zero => intro cpu res h; exact Option.noConfusion h
  | succ k ih =>
    intro cpu res h
    rw [runFcfs] at h
    split at h
    · cases h
      assumption
    · exact ih _ res h

/-- When the loop exits, `len(_finished)` equals the module-global `n` (SRT). -/
theorem runSrt_finished (n : Nat) :
    ∀ (fuel : Nat) (cpu res : CPU), runSrt n fuel cpu = some res →
      res._finished.length = n := by
  intro fuel
  induction fuel with
  | zero => intro cpu res h; exact Option.noConfusion h
  | succ k ih =>
    intro cpu res h
    rw [runSrt] at h
    split at h
    · cases h
      assumption
    · exact ih _ res h

/-- Across a whole FCFS run the preemption counter never changes. -/
theorem runFcfs_preempt (n : Nat) :
    ∀ (fuel : Nat) (cpu res : CPU), runFcfs n fuel cpu = some res →
      res._preempt = cpu._preempt := by
  intro fuel
  induction fuel with
  | zero => intro cpu res h; exact Option.noConfusion h
  | succ k ih =>
    intro cpu res h
    rw [runFcfs] at h
    split at h
    · cases h
      exact fcfsBody_preempt cpu
    · exact (ih _ res h).trans (fcfsBody_preempt cpu)

/-- Across a whole FCFS run the clock never decreases. -/
theorem runFcfs_ticker (n : Nat) :
    ∀ (fuel : Nat) (cpu res : CPU), runFcfs n fuel cpu = some res →
      cpu._ticker ≤ res._ticker := by
  intro fuel
  induction fuel with
  | zero => intro cpu res h; exact Option.noConfusion h
  | succ k ih =>
    intro cpu res h
    rw [runFcfs] at h
    split at h
    · cases h
      exact fcfsBody_ticker cpu
    · have h1 := ih _ res h
      have h2 := fcfsBody_ticker cpu
      have h3 : (fcfsBody cpu)._ticker + 1 ≤ res._ticker := h1
      omega

/-- Across a whole SRT run the clock never decreases. -/
theorem runSrt_ticker (n : Nat) :
    ∀ (fuel : Nat) (cpu res : CPU), runSrt n fuel cpu = some res →
      cpu._ticker ≤ res._ticker := by
  intro fuel
  induction fuel with
  | zero => intro cpu res h; exact Option.noConfusion h
  | succ k ih =>
    intro cpu res h
    rw [runSrt] at h
    split at h
    · cases h
      exact srtBody_ticker cpu
    · have h1 := ih _ res h
      have h2 := srtBody_ticker cpu
      have h3 : (srtBody cpu)._ticker + 1 ≤ res._ticker := h1
      omega

end Project1

namespace Project1

/-- The state the FCFS simulation of workload `[pA420]` is stuck in from the
sixth iteration on: process A finished its first burst at 8ms and was
scheduled to complete its 0ms I/O at 12ms, but `remove()` jumped the clock
from 8 to 12 and the end-of-iteration increment to 13, so the equality test
of the I/O drain can never fire again. -/
def fcfsStuck (t : Nat) : CPU :=
  { _procs := [pA420]
    _total_turnaround := 12
    _total_wait := 0
    _total_num := 2
    _context := 1
    _preempt := 0
    _ticker := t
    _curr := none
    _ready := []
    _finished := []
    _io := [({ pA420 with _remaining := 0, _num := 1 }, 12)] }

/-- Past tick 13 the loop body no longer changes the stuck state. -/
theorem fcfsBody_stuck (t : Nat) (ht : 13 ≤ t) : fcfsBody (fcfsStuck t) = fcfsStuck t := by
  have h12 : ((12 : Nat) == t) = false := beq_eq_false_iff_ne.mpr (by omega)
  have h0 : ((0 : Nat) == t) = false := beq_eq_false_iff_ne.mpr (by omega)
  simp [fcfsBody, fcfsStuck, fcfsBurstCheck, fcfsIoDrain, fcfsArrivals, fcfsAdmit,
    pA420, Process.init, sortProcs, h12, h0]

/-- From the stuck state the FCFS loop never exits, whatever the fuel. -/
theorem runFcfs_stuck : ∀ (fuel t : Nat), 13 ≤ t → runFcfs 1 fuel (fcfsStuck t) = none := by
  intro fuel
  induction fuel with
  | zero => intro t ht; rfl
  | succ k ih =>
    intro t ht
    rw [runFcfs]
    simp only [fcfsBody_stuck t ht]
    rw [if_neg (by simp [fcfsStuck])]
    have he : { fcfsStuck t with _ticker := (fcfsStuck t)._ticker + 1 } = fcfsStuck (t + 1) := rfl
    rw [he]
    exact ih (t + 1) (by omega)

/-- One non-final unfolding of the FCFS loop. -/
theorem runFcfs_step (n m : Nat) (cpu : CPU) (h : ¬ (fcfsBody cpu)._finished.length = n) :
    runFcfs n (m + 1) cpu =
      runFcfs n m { fcfsBody cpu with _ticker := (fcfsBody cpu)._ticker + 1 } := by
  rw [runFcfs]
  simp only []
  rw [if_neg h]

/-- After five iterations on workload `[pA420]` the run has reached the stuck
state at tick 13. -/
theorem runFcfs_pA420_reaches_stuck (fuel : Nat) :
    runFcfs 1 (fuel + 5) (CPU.init [pA420]) = runFcfs 1 fuel (fcfsStuck 13) := by
  show runFcfs 1 ((fuel + 4) + 1) (CPU.init [pA420]) = runFcfs 1 fuel (fcfsStuck 13)
  rw [runFcfs_step 1 (fuel + 4) _ (by decide)]
  show runFcfs 1 ((fuel + 3) + 1) _ = runFcfs 1 fuel (fcfsStuck 13)
  rw [runFcfs_step 1 (fuel + 3) _ (by decide)]
  show runFcfs 1 ((fuel + 2) + 1) _ = runFcfs 1 fuel (fcfsStuck 13)
  rw [runFcfs_step 1 (fuel + 2) _ (by decide)]
  show runFcfs 1 ((fuel + 1) + 1) _ = runFcfs 1 fuel (fcfsStuck 13)
  rw [runFcfs_step 1 (fuel + 1) _ (by decide)]
  show runFcfs 1 (fuel + 1) _ = runFcfs 1 fuel (fcfsStuck 13)
  rw [runFcfs_step 1 fuel _ (by decide)]
  congr 1

/-- The FCFS run of `[pA420]` exhausts any amount of fuel. -/
theorem runFcfs_pA420_none (fuel : Nat) : runFcfs 1 fuel (CPU.init [pA420]) = none := by
  rcases Nat.lt_or_ge fuel 5 with h | h
  · interval_cases fuel <;> decide
  · obtain ⟨k, rfl⟩ : ∃ k, fuel = k + 5 := ⟨fuel - 5, by omega⟩
    rw [runFcfs_pA420_reaches_stuck]
    exact runFcfs_stuck k 13 (by omega)

end Project1

namespace Project1

/-! ### Concrete states for witnesses and counterexamples -/

/-- A running process with 3ms left of a 9ms burst. -/
def cW2 : Process := { Process.init "C" 0 9 1 0 with _remaining := 3 }

/-- A candidate process with 3ms remaining (equal to `cW2`). -/
def bW2 : Process := { Process.init "B" 0 3 1 0 with _remaining := 3 }

/-- An SRT state at 50ms with `cW2` running. -/
def cpuW2 : CPU := { CPU.init [cW2, bW2] with _ticker := 50, _curr := some cW2 }

/-- Workload line `C|0|12|1|0`. -/
def pC : Process := Process.init "C" 0 12 1 0

/-- Workload line `X|0|5|1|0`. -/
def pX : Process := Process.init "X" 0 5 1 0

/-- Workload line `Y|108|2|1|0`. -/
def pY : Process := Process.init "Y" 108 2 1 0

/-- An SRT state at 100ms: C is running with 10ms left, X completes I/O at
100ms with 5ms left, and Y (2ms burst) arrives at 108ms — the very tick the
clock reaches after an I/O preemption charges the full context switch. -/
def ceCpu : CPU :=
  { CPU.init [pC, pX, pY] with
    _ticker := 100
    _curr := some { pC with _remaining := 10 }
    _io := [({ pX with _remaining := 5 }, 100)] }

/-- A state at 20ms with `cW2` running (3ms of burst left). -/
def cpuW4 : CPU := { CPU.init [cW2, bW2] with _ticker := 20, _curr := some cW2 }

/-- A state at 30ms with `cW2` occupying the running slot. -/
def cpuOcc : CPU := { CPU.init [cW2, bW2] with _ticker := 30, _curr := some cW2 }

/-- Final FCFS state of workload `[pA]` (computed by the embedding). -/
def fcfsRes8 : CPU :=
  { _procs := [pA]
    _total_turnaround := 12
    _total_wait := 0
    _total_num := 1
    _context := 1
    _preempt := 0
    _ticker := 12
    _curr := none
    _ready := []
    _finished := [("A", 8)]
    _io := [] }

/-- Final SRT state of workload `[pA]` (computed by the embedding). -/
def srtRes8 : CPU :=
  { _procs := [pA]
    _total_turnaround := 12
    _total_wait := 0
    _total_num := 1
    _context := 1
    _preempt := 0
    _ticker := 12
    _curr := none
    _ready := []
    _finished := [("A", 8)]
    _io := [] }

/-- Final FCFS state of workload `[pA121]` (computed by the embedding). -/
def fcfsRes6 : CPU :=
  { _procs := [pA121]
    _total_turnaround := 18
    _total_wait := 0
    _total_num := 2
    _context := 2
    _preempt := 0
    _ticker := 19
    _curr := none
    _ready := []
    _finished := [("A", 15)]
    _io := [] }

/-- Final SRT state of workload `[pA121]`: as the FCFS one, except that
`run_srt` never deletes fired entries from `_io`. -/
def srtRes6 : CPU :=
  { _procs := [pA121]
    _total_turnaround := 18
    _total_wait := 0
    _total_num := 2
    _context := 2
    _preempt := 0
    _ticker := 19
    _curr := none
    _ready := []
    _finished := [("A", 15)]
    _io := [({ pA121 with _num := 1 }, 10)] }

/-! ### The claims -/

/-- C1: `run_rr` does not simulate anything.  On workload `A|0|4|1|0` it
returns the five-tuple `(4, 0, 0, 0, 0)` of the freshly built state: the
clock never advances, the process is never admitted and never terminates, and
the context-switch count is 0 — where the specified RR behavior would admit A
(one context switch) and run it to termination. -/
theorem rr_stub_returns_init_stats :
    run_rr [pA] = ((4 : ℚ), 0, 0, 0, 0) ∧ (CPU.init [pA])._ticker = 0 ∧
      (CPU.init [pA])._curr = none := by
  refine ⟨?_, rfl, rfl⟩
  show statsOf (CPU.init [pA]) = _
  simp [statsOf, CPU.init, pA, Process.init]

/-- C2: in `run_srt`, when a group of newly-ready candidates meets a running
process that is not retiring this tick, its best candidate preempts exactly
when its remaining time is *strictly* below the running process's; with equal
remaining time the running process keeps the CPU and the preemption counter
does not change. -/
theorem srt_preempt_strict (cpu : CPU) (removed : Bool) (c best : Process)
    (rest : List Process) (hc : cpu._curr = some c) (hr : removed = false) :
    (best._remaining < c._remaining →
        (srtAdmitReady cpu removed (best :: rest))._preempt = cpu._preempt + 1 ∧
        (srtAdmitReady cpu removed (best :: rest))._curr =
          some { best with _remaining := best._remaining - 1 }) ∧
    (¬ best._remaining < c._remaining →
        (srtAdmitReady cpu removed (best :: rest))._preempt = cpu._preempt ∧
        (srtAdmitReady cpu removed (best :: rest))._curr = some c) := by
  subst hr
  have hp : cpu.preempt best =
      { cpu with
        _ticker := cpu._ticker + t_cs / 2 + t_cs / 2
        _ready := { c with _readied := cpu._ticker + t_cs / 2 } :: cpu._ready
        _curr := some { best with _remaining := best._remaining - 1 }
        _context := cpu._context + 1
        _preempt := cpu._preempt + 1 } := by
    simp only [CPU.preempt, hc]
  constructor
  · intro hlt
    have he : srtAdmitReady cpu false (best :: rest) =
        srtInsertAll (cpu.preempt best) rest := by
      simp only [srtAdmitReady, hc]
      rw [if_pos hlt]
    rw [he, (srtInsertAll_preserves _ _).2.1, (srtInsertAll_preserves _ _).1, hp]
    exact ⟨rfl, rfl⟩
  · intro hge
    have he : srtAdmitReady cpu false (best :: rest) =
        srtInsertAll cpu (best :: rest) := by
      simp only [srtAdmitReady, hc]
      rw [if_neg hge]
    rw [he, (srtInsertAll_preserves _ _).2.1, (srtInsertAll_preserves _ _).1]
    exact ⟨rfl, hc⟩

/-- C2 witness: two processes with equal remaining time (3ms): the candidate
does not preempt, the running process keeps the CPU. -/
theorem srt_preempt_strict_witness :
    (srtAdmitReady cpuW2 false [bW2])._preempt = cpuW2._preempt ∧
    (srtAdmitReady cpuW2 false [bW2])._curr = some cW2 :=
  (srt_preempt_strict cpuW2 false cW2 bW2 [] rfl rfl).2 (by decide)

/-- C3 counterexample: in a single iteration of the SRT loop the preemption
counter rises by 2 — the I/O-completion group's best candidate preempts,
*and then* the arrival group's best candidate preempts the new running
process — refuting "at most one preemption happens per tick" and "exactly one
candidate is compared". -/
theorem srt_two_preemptions_in_one_tick :
    (srtBody ceCpu)._preempt = 2 ∧ ceCpu._preempt = 0 := by
  constructor <;> decide

/-- C3 (amended): per candidate *group* (I/O completions, then arrivals),
only the group's best candidate is ever compared, so each group causes at
most one preemption and one loop iteration causes at most two. -/
theorem srt_per_group_preemption :
    (∀ (cpu : CPU) (removed : Bool) (cands : List Process),
        (srtAdmitReady cpu removed cands)._preempt ≤ cpu._preempt + 1) ∧
    ∀ cpu : CPU, (srtBody cpu)._preempt ≤ cpu._preempt + 2 :=
  ⟨srtAdmitReady_preempt_le, srtBody_preempt_le⟩

/-- C4: `preempt(incoming)` advances the clock by exactly the full
context-switch cost `t_cs`, pushes the running process to the *front* of the
ready queue with its ready time set to the clock as of the re-queueing
(i.e. after the switch-out half), installs the incoming process, and counts
exactly one context switch and one preemption. -/
theorem preempt_contract (cpu : CPU) (c p : Process) (hc : cpu._curr = some c) :
    (cpu.preempt p)._ticker = cpu._ticker + t_cs ∧
    (cpu.preempt p)._ready =
      { c with _readied := cpu._ticker + t_cs / 2 } :: cpu._ready ∧
    (cpu.preempt p)._curr = some { p with _remaining := p._remaining - 1 } ∧
    (cpu.preempt p)._context = cpu._context + 1 ∧
    (cpu.preempt p)._preempt = cpu._preempt + 1 := by
  have hp : cpu.preempt p =
      { cpu with
        _ticker := cpu._ticker + t_cs / 2 + t_cs / 2
        _ready := { c with _readied := cpu._ticker + t_cs / 2 } :: cpu._ready
        _curr := some { p with _remaining := p._remaining - 1 }
        _context := cpu._context + 1
        _preempt := cpu._preempt + 1 } := by
    simp only [CPU.preempt, hc]
  rw [hp]
  refine ⟨?_, rfl, rfl, rfl, rfl⟩
  show cpu._ticker + t_cs / 2 + t_cs / 2 = cpu._ticker + t_cs
  norm_num [t_cs]

/-- C4 witness: preempting `cW2` by `bW2` at 20ms. -/
theorem preempt_contract_witness :
    (cpuW4.preempt bW2)._ticker = cpuW4._ticker + t_cs ∧
    (cpuW4.preempt bW2)._ready =
      { cW2 with _readied := cpuW4._ticker + t_cs / 2 } :: cpuW4._ready ∧
    (cpuW4.preempt bW2)._curr = some { bW2 with _remaining := bW2._remaining - 1 } ∧
    (cpuW4.preempt bW2)._context = cpuW4._context + 1 ∧
    (cpuW4.preempt bW2)._preempt = cpuW4._preempt + 1 :=
  preempt_contract cpuW4 cW2 bW2 rfl

/-- C5: the FCFS run of the legal workload `A|0|4|2|0` (two 4ms bursts, 0ms
I/O) never terminates, however much fuel it is given: A's I/O completion is
scheduled for 12ms, but `remove()` jumps the clock from 8 to 12 and the
end-of-iteration increment to 13, so the `tick == cpu._ticker` drain misses
it forever and A stays blocked. -/
theorem fcfs_nonterminating_zero_io (fuel : Nat) : run_fcfs fuel [pA420] = none := by
  show (runFcfs 1 fuel (CPU.init [pA420])).map statsOf = none
  rw [runFcfs_pA420_none fuel]
  rfl

/-- C6 counterexample: workload `A|0|1|2|1` has total burst count 2, but its
completed FCFS run emits exactly one "terminated" event (one per process, not
one per burst). -/
theorem sum_bursts_ne_terminated_events :
    (runFcfs 1 40 (CPU.init [pA121])).map (fun c => (c._finished.length : Int)) =
      some 1 ∧
    ([pA121].map Process._num).sum = 2 ∧
    (runFcfs 1 40 (CPU.init [pA121])).map (fun c => (c._finished.length : Int)) ≠
      some (([pA121].map Process._num).sum) := by
  refine ⟨by decide, by decide, by decide⟩

/-- C6 (amended): a completed run emits exactly one "terminated" event per
*process*: when `run_fcfs`/`run_srt` exit their loop, `len(_finished)` equals
the number of processes in the workload. -/
theorem terminated_events_eq_process_count (procs : List Process) (fuel : Nat)
    (res : CPU) :
    (runFcfs procs.length fuel (CPU.init procs) = some res →
      res._finished.length = procs.length) ∧
    (runSrt procs.length fuel (CPU.init procs) = some res →
      res._finished.length = procs.length) :=
  ⟨runFcfs_finished _ fuel _ res, runSrt_finished _ fuel _ res⟩

/-- C6 amended-claim witness: the runs of `[pA121]` finish with exactly one
terminated event. -/
theorem terminated_events_eq_process_count_witness :
    fcfsRes6._finished.length = [pA121].length ∧
    srtRes6._finished.length = [pA121].length :=
  ⟨(terminated_events_eq_process_count [pA121] 40 fcfsRes6).1 (by decide),
   (terminated_events_eq_process_count [pA121] 40 srtRes6).2 (by decide)⟩

/-- C7 counterexample: `add` on a state whose running slot is occupied by
`cW2` raises nothing and silently installs the newcomer: the old running
process is gone (in particular it is not re-queued — the ready queue is
unchanged) and a context switch is counted as if nothing were wrong. -/
theorem add_replaces_running :
    (cpuOcc.add bW2)._curr = some { bW2 with _start := (30 : Int) } ∧
    (cpuOcc.add bW2)._ready = cpuOcc._ready ∧
    (cpuOcc.add bW2)._context = cpuOcc._context + 1 := by
  refine ⟨by decide, by decide, by decide⟩

/-- C7 (amended): `add` performs no occupancy check and cannot fail: for
*every* state it unconditionally installs the incoming process as running,
advances the clock by half the switch cost and counts one context switch,
silently dropping whatever was in the running slot. -/
theorem add_unconditional (cpu : CPU) (p : Process) :
    (cpu.add p)._curr = some { p with _start := (cpu._ticker : Int) } ∧
    (cpu.add p)._context = cpu._context + 1 ∧
    (cpu.add p)._ticker = cpu._ticker + t_cs / 2 ∧
    (cpu.add p)._ready = cpu._ready :=
  ⟨rfl, rfl, rfl, rfl⟩

/-- C8: FCFS on the single workload line `A|0|4|1|0` with `t_cs = 8` returns
average burst 4.00ms, average wait 0.00ms, average turnaround 12.00ms, one
context switch and no preemption. -/
theorem fcfs_single_process_stats :
    run_fcfs 20 [pA] = some ((4 : ℚ), 0, 12, 1, 0) := by
  show (runFcfs 1 20 (CPU.init [pA])).map statsOf = some ((4 : ℚ), 0, 12, 1, 0)
  rw [show runFcfs 1 20 (CPU.init [pA]) = some fcfsRes8 from by decide]
  show some (statsOf fcfsRes8) = _
  simp [statsOf, fcfsRes8, pA, Process.init]

/-- C9: FCFS never preempts: every completed `run_fcfs` reports 0 preemptions
in the fifth component of its five-tuple, and whenever the running process
still has burst time left, the loop body keeps it on the CPU (only decreasing
its remaining time) — the CPU is given up only at burst completion. -/
theorem fcfs_no_preemption :
    (∀ (procs : List Process) (fuel : Nat) (res : ℚ × ℚ × ℚ × Nat × Nat),
        run_fcfs fuel procs = some res → res.2.2.2.2 = 0) ∧
    ∀ (cpu : CPU) (c : Process), cpu._curr = some c → 0 < c._remaining →
      (fcfsBody cpu)._curr = some { c with _remaining := c._remaining - 1 } := by
  constructor
  · intro procs fuel res h
    rw [run_fcfs, Option.map_eq_some'] at h
    obtain ⟨cpuF, h1, h2⟩ := h
    have h3 := runFcfs_preempt procs.length fuel _ _ h1
    have h4 : res.2.2.2.2 = cpuF._preempt := by
      rw [← h2]
      rfl
    rw [h4, h3]
    rfl
  · intro cpu c hc hrem
    have hbc : fcfsBurstCheck cpu =
        ({ cpu with _curr := some { c with _remaining := c._remaining - 1 } }, false) := by
      simp only [fcfsBurstCheck, hc]
      rw [if_neg (by omega)]
    simp only [fcfsBody, hbc]
    rw [if_neg Bool.false_ne_true]
    have h1 : (fcfsArrivals (fcfsIoDrain
        { cpu with _curr := some { c with _remaining := c._remaining - 1 } }))._curr =
        some { c with _remaining := c._remaining - 1 } := by
      rw [(fcfsArrivals_preserves _).1, (fcfsIoDrain_preserves _).1]
    rw [fcfsAdmit_of_some _ _ h1]
    exact h1

/-- C9 witness: the completed FCFS run of `[pA]` reports 0 preemptions, and
the loop body keeps `cW2` (3ms left) running. -/
theorem fcfs_no_preemption_witness :
    (statsOf fcfsRes8).2.2.2.2 = 0 ∧
    (fcfsBody cpuW4)._curr = some { cW2 with _remaining := cW2._remaining - 1 } := by
  constructor
  · apply fcfs_no_preemption.1 [pA] 20 (statsOf fcfsRes8)
    show (runFcfs 1 20 (CPU.init [pA])).map statsOf = some (statsOf fcfsRes8)
    rw [show runFcfs 1 20 (CPU.init [pA]) = some fcfsRes8 from by decide]
    rfl
  · exact fcfs_no_preemption.2 cpuW4 cW2 rfl (by decide)

/-- C10: the simulation clock never decreases: not under `add`, `remove` or
`preempt`, not across one loop-body iteration of either policy, and not
across a whole completed run. -/
theorem clock_monotone :
    (∀ (cpu : CPU) (p : Process), cpu._ticker ≤ (cpu.add p)._ticker) ∧
    (∀ cpu : CPU, cpu._ticker ≤ cpu.remove._ticker) ∧
    (∀ (cpu : CPU) (p : Process), cpu._ticker ≤ (cpu.preempt p)._ticker) ∧
    (∀ cpu : CPU, cpu._ticker ≤ (fcfsBody cpu)._ticker) ∧
    (∀ cpu : CPU, cpu._ticker ≤ (srtBody cpu)._ticker) ∧
    (∀ (n fuel : Nat) (cpu res : CPU), runFcfs n fuel cpu = some res →
      cpu._ticker ≤ res._ticker) ∧
    ∀ (n fuel : Nat) (cpu res : CPU), runSrt n fuel cpu = some res →
      cpu._ticker ≤ res._ticker := by
  refine ⟨?_, ?_, ?_, fcfsBody_ticker, srtBody_ticker, runFcfs_ticker, runSrt_ticker⟩
  · intro cpu p
    exact Nat.le_add_right _ _
  · intro cpu
    exact (remove_preserves cpu).2.2
  · intro cpu p
    exact (preempt_le cpu p).2

/-- C10 witness: the clock of the completed runs of `[pA]` (12ms) is at or
above the starting clock (0ms). -/
theorem clock_monotone_witness :
    (CPU.init [pA])._ticker ≤ fcfsRes8._ticker ∧
    (CPU.init [pA])._ticker ≤ srtRes8._ticker :=
  ⟨clock_monotone.2.2.2.2.2.1 1 20 (CPU.init [pA]) fcfsRes8 (by decide),
   clock_monotone.2.2.2.2.2.2 1 20 (CPU.init [pA]) srtRes8 (by decide)⟩

end Project1
